import Mathlib

/-!
# realorm: DSN parsing, dialect resolution, connection set-up and the generic repository

A shallow embedding of `database/dialect.go`, `database/database.go` and
`realorm/realorm.go`.

Conventions of the embedding.

* A Go `string` is a Lean `String`; `strings.Split` is only ever called with the
  one-character separators `" "` and `"="`, so it is embedded for a separator
  that is a single character.
* A Go `map[string]string` is an association list: `m[k] = v` puts `(k, v)` in
  front, the comma-ok read `m[k]` is `List.lookup`, which returns the entry put
  last.
* A Go result pair `(*T, error)` is a pair of options: `none` is `nil`.
* A run-time panic is the constructor `Outcome.panics`.
* `int` is the 64-bit signed integer; arithmetic wraps through `wrapInt`.
* The query engine behind `*gorm.DB` is a parameter: a function from the request
  a call chain builds and the engine state to an outcome, which is a panic or a
  reply with the next state; a panic of the engine is a panic of its caller.
-/

namespace Realorm

/-! ## Strings -/

/-- Pieces of a character sequence cut at every occurrence of the separator:
`strings.Split` for a one-character separator. The empty sequence gives one
empty piece. -/
def splitChars (sep : Char) : List Char → List (List Char)
  | [] => [[]]
  | c :: cs =>
    if c = sep then [] :: splitChars sep cs
    else
      match splitChars sep cs with
      | [] => [[c]]
      | piece :: rest => (c :: piece) :: rest

/-- Go `strings.Split(s, sep)` for a separator of one character. -/
def Split (s : String) (sep : Char) : List String :=
  (splitChars sep s.data).map String.mk

/-! ## database/database.go and database/dialect.go -/

/-- Go `type config struct` of `database/database.go`. -/
structure config where
  database : String
  user : String
  password : String
  host : String
  sslmode : String
  timezone : String
  deriving DecidableEq, Repr

/-- Go `type DialectString string`. -/
abbrev DialectString := String

/-- Go constant `PG`. -/
def PG : DialectString := "postgres"

/-- Go constant `SQLITE3`. -/
def SQLITE3 : DialectString := "sqlite3"

/-- Go constant `MYSQL`. -/
def MYSQL : DialectString := "mysql"

/-- Go constant `SQLITE3_MEMORY_DB`. -/
def SQLITE3_MEMORY_DB : String := "file::memory:?cache=shared"

/-- Go `(c *config) getDSN()`, for a non-nil receiver: the `Sprintf` of
`"host=%s user=%s password=%s dbname=%s sslmode=%s timezone=%s"`. -/
def config.getDSN (c : config) : String :=
  "host=" ++ c.host ++ " user=" ++ c.user ++ " password=" ++ c.password
    ++ " dbname=" ++ c.database ++ " sslmode=" ++ c.sslmode ++ " timezone=" ++ c.timezone

/-- Go `DSNFromConfig(c *config)`, for a non-nil `c`. -/
def DSNFromConfig (c : config) : String :=
  c.getDSN

/-- Go `NewConfig(db, user, password, host, ssl_mode, tz)`. -/
def NewConfig (db user password host _ssl_mode tz : String) : config :=
  { database := db, user := user, password := password, host := host,
    sslmode := "disable", timezone := tz }

/-- One round of the loop of `parse_dsn`: the token is split at `=` and put in
the mapping when the split has exactly two parts. -/
def parse_dsn_step (params : List (String × String)) (s : String) : List (String × String) :=
  match Split s '=' with
  | [k, v] => (k, v) :: params
  | _ => params

/-- Go `parse_dsn(dsn string) map[string]string`. -/
def parse_dsn (dsn : String) : List (String × String) :=
  (Split dsn ' ').foldl parse_dsn_step []

/-- Go `ParseDSN(dsn string) (*config, error)`. -/
def ParseDSN (dsn : String) : Option config × Option String :=
  if dsn = "" then
    (none, some ("cannot parse DSN. " ++ "DSN is empty"))
  else
    let params := parse_dsn dsn
    let sslmode :=
      match params.lookup "sslmode" with
      | some sslmode => sslmode
      | none => "disable"
    let timezone :=
      match params.lookup "timezone" with
      | some timezone => timezone
      | none => "UTC"
    match params.lookup "host" with
    | none => (none, some ("cannot parse DSN. " ++ "host is empty"))
    | some host =>
      match params.lookup "user" with
      | none => (none, some ("cannot parse DSN. " ++ "user is empty"))
      | some user =>
        match params.lookup "password" with
        | none => (none, some ("cannot parse DSN. " ++ "password is empty"))
        | some password =>
          match params.lookup "dbname" with
          | none => (none, some ("cannot parse DSN. " ++ "database is empty"))
          | some database =>
            (some { database := database, user := user, password := password,
                    host := host, sslmode := sslmode, timezone := timezone }, none)

/-- A function call either returns a value or panics at run time. -/
inductive Outcome (α : Type) where
  | returns (a : α)
  | panics
  deriving DecidableEq, Repr

/-- Go `logger.LogLevel` of gorm. -/
inductive LogLevel where
  | Silent
  | Error
  | Warn
  | Info
  deriving DecidableEq, Repr

/-- The `gorm.Dialector` a driver builds from a DSN: `postgres.Open(dsn)`,
`sqlite.Open(dsn)`, `mysql.Open(dsn)`. -/
inductive Dialector where
  | postgres (dsn : String)
  | sqlite (dsn : String)
  | mysql (dsn : String)
  deriving DecidableEq, Repr

/-- The fields of `gorm.Config` that `ParseDialect` sets; `Logger` holds the level
given to `logger.Default.LogMode`. -/
structure GormConfig where
  PrepareStmt : Bool
  Logger : LogLevel
  DisableForeignKeyConstraintWhenMigrating : Bool
  deriving DecidableEq, Repr

/-- Go `ParseDialect(dsn, dialect) (gorm.Dialector, gorm.Config, error)`. The
process environment read by `os.Getenv` is the parameter `getenv`. -/
def ParseDialect (getenv : String → String) (dsn : String) (dialect : DialectString) :
    Option Dialector × GormConfig × Option String :=
  let gormConfig : GormConfig :=
    { PrepareStmt := false, Logger := LogLevel.Info,
      DisableForeignKeyConstraintWhenMigrating := false }
  let level := getenv "SQL_LOG_LEVEL"
  let gormConfig : GormConfig :=
    if level = "info" then { gormConfig with Logger := LogLevel.Info }
    else if level = "error" then { gormConfig with Logger := LogLevel.Error }
    else { gormConfig with Logger := LogLevel.Silent }
  if dialect = PG then
    (some (Dialector.postgres dsn),
      { PrepareStmt := true, Logger := gormConfig.Logger,
        DisableForeignKeyConstraintWhenMigrating := false },
      none)
  else if dialect = SQLITE3 then
    (some (Dialector.sqlite dsn), gormConfig, none)
  else if dialect = MYSQL then
    (some (Dialector.mysql dsn), gormConfig, none)
  else
    (none, gormConfig, some ("unknown dialect: " ++ dialect))

/-- The dynamic shapes of the `connection any` argument of `Connect`: a `*config`
(possibly the nil pointer), a `string`, a value of any other dynamic type, or the
nil interface. -/
inductive Connection where
  | config (c : Option config)
  | string (s : String)
  | other (typ : Nat)
  | nil
  deriving DecidableEq, Repr

/-- The calls `Connect` makes after it has accepted its descriptor, in order. -/
inductive Call where
  | ParseDialect (dsn : String) (dialect : DialectString)
  | gormOpen (dialector : Option Dialector) (gormConfig : GormConfig)
  deriving DecidableEq, Repr

/-- Go `Connect(connection any, dialect DialectString) (*gorm.DB, error)`. The
engine's `gorm.Open` is the parameter `gormOpen`; the result carries the calls
made. A nil `*config` with the postgres dialect is dereferenced by `getDSN`. -/
def Connect {H : Type} (getenv : String → String)
    (gormOpen : Option Dialector → GormConfig → Option H × Option String)
    (connection : Connection) (dialect : DialectString) :
    Outcome ((Option H × Option String) × List Call) :=
  let accepted : Outcome (String ⊕ String) :=
    match connection with
    | Connection.config c =>
      if dialect = PG then
        match c with
        | some c => Outcome.returns (Sum.inr (DSNFromConfig c))
        | none => Outcome.panics
      else
        Outcome.returns (Sum.inl "config is only valid when dialect is postgres")
    | Connection.string s => Outcome.returns (Sum.inr s)
    | _ => Outcome.returns (Sum.inl "connection is not a valid dsn string or config")
  match accepted with
  | Outcome.panics => Outcome.panics
  | Outcome.returns (Sum.inl err) => Outcome.returns ((none, some err), [])
  | Outcome.returns (Sum.inr dsn) =>
    match ParseDialect getenv dsn dialect with
    | (_, _, some err) => Outcome.returns ((none, some err), [Call.ParseDialect dsn dialect])
    | (dialector, gormConfig, none) =>
      Outcome.returns (gormOpen dialector gormConfig,
        [Call.ParseDialect dsn dialect, Call.gormOpen dialector gormConfig])

/-! ## realorm/realorm.go -/

/-- Go `int` arithmetic: the result of an operation wraps to 64 bits, signed. -/
def wrapInt (x : Int) : Int :=
  (x + 2 ^ 63) % 2 ^ 64 - 2 ^ 63

/-- Go `type WhereClause struct`. A value of type `any` is an `Option V`: `none`
is the nil interface. -/
structure WhereClause (V : Type) where
  Query : String
  Args : List (Option V)

/-- An argument handed to the engine: one value, a slice passed as one value, or
an unsigned integer. -/
inductive Arg (V : Type) where
  | one (v : Option V)
  | slice (vs : List (Option V))
  | uint (n : Nat)

/-- The method that ends a gorm call chain and reaches the database. -/
inductive Finisher where
  | First
  | Find
  | Count
  | Updates
  | Delete
  deriving DecidableEq, Repr

/-- What a gorm call chain has built when its finisher runs. -/
structure Request (V : Type) where
  finisher : Finisher
  preload : Bool := false
  model : Option (Option V) := none
  wh : Option (String × List (Arg V)) := none
  offset : Option Int := none
  limit : Option Int := none
  dest : Option V := none
  conds : List (Arg V) := []

/-- What the engine hands back: the `Error` of the chain, the number written by
`Count`, and the value left behind the destination pointer. -/
structure Reply (V E : Type) where
  Error : Option E
  count : Int
  value : Option V

/-- The query engine behind `*gorm.DB`: a request either panics inside the engine
(gorm does so, for one, on a destination it cannot address) or ends with a reply
and the next engine state. -/
abbrev Engine (S V E : Type) := Request V → S → Outcome (Reply V E × S)

/-- The connection of the `orm` struct: the engine state and the requests issued
to it so far. -/
structure DB (S V : Type) where
  state : S
  issued : List (Request V)

/-- Run one request on the connection; a panic of the engine goes through. -/
def DB.exec {S V E : Type} (eng : Engine S V E) (r : Request V) (db : DB S V) :
    Outcome (Reply V E × DB S V) :=
  match eng r db.state with
  | Outcome.panics => Outcome.panics
  | Outcome.returns (reply, s) =>
    Outcome.returns (reply, { state := s, issued := db.issued ++ [r] })

/-- A Go `error` of the repository: the sentinel `ErrNoWhereClause` or an error of
the engine. -/
inductive OrmError (E : Type) where
  | ErrNoWhereClause
  | engine (e : E)
  deriving DecidableEq, Repr

/-- Lift the `Error` of a reply to a repository error. -/
def engineError {E : Type} (e : Option E) : Option (OrmError E) :=
  e.map OrmError.engine

/-- Go `GetType(model any) any`: `reflect.New(reflect.TypeOf(model)).Interface()`.
`reflect.TypeOf` of the nil interface is nil and `reflect.New(nil)` panics;
`newOf` allocates a zero value of the type of its argument. -/
def GetType {V : Type} (newOf : V → V) (model : Option V) : Outcome (Option V) :=
  match model with
  | none => Outcome.panics
  | some v => Outcome.returns (some (newOf v))

/-- Go `type PaginatedResult struct`. -/
structure PaginatedResult (V : Type) where
  Results : Option V
  Count : Int
  TotalPages : Int
  HasNext : Bool
  HasPrev : Bool
  Page : Int

/-- The `Where(where.Query, where.Args...)` of a chain. -/
def WhereClause.spread {V : Type} (w : WhereClause V) : String × List (Arg V) :=
  (w.Query, w.Args.map Arg.one)

/-- Go `(o *orm) Find(model any, where *WhereClause) error`; the second component
is the value behind `model` after the call. -/
def Find {S V E : Type} (eng : Engine S V E) (db : DB S V) (model : Option V)
    (wh : Option (WhereClause V)) : Outcome ((Option (OrmError E) × Option V) × DB S V) :=
  match wh with
  | none => Outcome.returns ((some OrmError.ErrNoWhereClause, model), db)
  | some w =>
    match db.exec eng
        { finisher := Finisher.First, preload := true, wh := some w.spread, dest := model } with
    | Outcome.panics => Outcome.panics
    | Outcome.returns (reply, db1) =>
      Outcome.returns ((engineError reply.Error, reply.value), db1)

/-- Go `(o *orm) FindAll(models any, where *WhereClause) error`. -/
def FindAll {S V E : Type} (eng : Engine S V E) (db : DB S V) (models : Option V)
    (wh : Option (WhereClause V)) : Outcome ((Option (OrmError E) × Option V) × DB S V) :=
  match wh with
  | some w =>
    match db.exec eng
        { finisher := Finisher.Find, preload := true, wh := some w.spread, dest := models } with
    | Outcome.panics => Outcome.panics
    | Outcome.returns (reply, db1) =>
      Outcome.returns ((engineError reply.Error, reply.value), db1)
  | none =>
    match db.exec eng { finisher := Finisher.Find, preload := true, dest := models } with
    | Outcome.panics => Outcome.panics
    | Outcome.returns (reply, db1) =>
      Outcome.returns ((engineError reply.Error, reply.value), db1)

/-- The count query of `FindAllPaginated`: `o.DB.Model(models).Where(...).Count(&count)`,
without the `Where` when the clause is nil. -/
def countRequest {V : Type} (models : Option V) (wh : Option (WhereClause V)) : Request V :=
  match wh with
  | some w => { finisher := Finisher.Count, model := some models, wh := some w.spread }
  | none => { finisher := Finisher.Count, model := some models }

/-- The page query of `FindAllPaginated`:
`o.DB.Preload(clause.Associations).Model(models).Where(...).Offset(offset).Limit(pageSize).Find(models)`,
without the `Where` when the clause is nil. -/
def pageRequest {V : Type} (models : Option V) (offset pageSize : Int)
    (wh : Option (WhereClause V)) : Request V :=
  match wh with
  | some w =>
    { finisher := Finisher.Find, preload := true, model := some models, wh := some w.spread,
      offset := some offset, limit := some pageSize, dest := models }
  | none =>
    { finisher := Finisher.Find, preload := true, model := some models,
      offset := some offset, limit := some pageSize, dest := models }

/-- Go `(o *orm) FindAllPaginated(models any, page int, pageSize int, where *WhereClause)
(*PaginatedResult, error)`. Division by a zero `pageSize` panics, and so does the
function when the engine panics in the count query or in the page query. -/
def FindAllPaginated {S V E : Type} (eng : Engine S V E) (db : DB S V) (models : Option V)
    (page pageSize : Int) (wh : Option (WhereClause V)) :
    Outcome ((Option (PaginatedResult V) × Option (OrmError E)) × DB S V) :=
  match db.exec eng (countRequest models wh) with
  | Outcome.panics => Outcome.panics
  | Outcome.returns (counted, db1) =>
    let count := counted.count
    match counted.Error with
    | some err => Outcome.returns ((none, some (OrmError.engine err)), db1)
    | none =>
      if pageSize = 0 then Outcome.panics
      else
        let totalPages := wrapInt (Int.tdiv count pageSize)
        let totalPages :=
          if Int.tmod count pageSize > 0 then wrapInt (totalPages + 1) else totalPages
        let offset := if page = 1 then 0 else wrapInt (wrapInt (page - 1) * pageSize)
        match db1.exec eng (pageRequest models offset pageSize wh) with
        | Outcome.panics => Outcome.panics
        | Outcome.returns (found, db2) =>
          Outcome.returns
            ((some { Results := found.value, Count := count, TotalPages := totalPages,
                     HasNext := decide (page < totalPages), HasPrev := decide (page > 1),
                     Page := page },
              engineError found.Error), db2)

/-- Go `(o *orm) Update(updates any, id uint, where *WhereClause) (any, error)`. -/
def Update {S V E : Type} (newOf : V → V) (eng : Engine S V E) (db : DB S V)
    (updates : Option V) (id : Nat) (wh : Option (WhereClause V)) :
    Outcome ((Option V × Option (OrmError E)) × DB S V) :=
  match GetType newOf updates with
  | Outcome.panics => Outcome.panics
  | Outcome.returns entity =>
    match wh with
    | none => Outcome.returns ((none, some OrmError.ErrNoWhereClause), db)
    | some w =>
      match db.exec eng
          { finisher := Finisher.First, dest := entity, conds := [Arg.uint id] } with
      | Outcome.panics => Outcome.panics
      | Outcome.returns (loaded, db1) =>
        match loaded.Error with
        | some err => Outcome.returns ((none, some (OrmError.engine err)), db1)
        | none =>
          match db1.exec eng
              { finisher := Finisher.Updates, model := some loaded.value,
                wh := some w.spread, dest := updates } with
          | Outcome.panics => Outcome.panics
          | Outcome.returns (updated, db2) =>
            match updated.Error with
            | some err => Outcome.returns ((none, some (OrmError.engine err)), db2)
            | none =>
              match db2.exec eng
                  { finisher := Finisher.First, preload := true, wh := some w.spread,
                    dest := updated.value } with
              | Outcome.panics => Outcome.panics
              | Outcome.returns (again, db3) =>
                Outcome.returns ((again.value, engineError again.Error), db3)

/-- Go `(o *orm) Delete(model any, where *WhereClause) error`; the arguments of the
where clause are handed over as one slice. -/
def Delete {S V E : Type} (eng : Engine S V E) (db : DB S V) (model : Option V)
    (wh : Option (WhereClause V)) : Outcome (Option (OrmError E) × DB S V) :=
  match wh with
  | none => Outcome.returns (some OrmError.ErrNoWhereClause, db)
  | some w =>
    match db.exec eng
        { finisher := Finisher.Delete, wh := some (w.Query, [Arg.slice w.Args]),
          dest := model } with
    | Outcome.panics => Outcome.panics
    | Outcome.returns (reply, db1) => Outcome.returns (engineError reply.Error, db1)

/-! ## Notions used to state the properties -/

/-- A string without a space and without an equals sign. -/
def Clean (v : String) : Prop :=
  ' ' ∉ v.data ∧ '=' ∉ v.data

/-- The value a token gives to the key `k`: the token must split at `=` in exactly
two parts, the first of them `k`. -/
def acceptedValue (k : String) (t : String) : Option String :=
  match Split t '=' with
  | [k', v] => if k = k' then some v else none
  | _ => none

/-- The value of the last token of the DSN accepted for the key `k`. -/
def lastAccepted (dsn : String) (k : String) : Option String :=
  (Split dsn ' ').reverse.findSome? (acceptedValue k)

/-- The message names the key: the key occurs in the message as a contiguous run
of characters. -/
def namesKey (msg key : String) : Prop :=
  key.data <:+: msg.data

instance namesKeyDecidable (msg key : String) : Decidable (namesKey msg key) := by
  unfold namesKey
  infer_instance

/-- An engine over a table with one row: `Count` reports one row, every other
request succeeds and leaves the destination as it is; a `Find` without a
destination panics. -/
def oneRowEngine : Engine Unit Nat String := fun r s =>
  match r.finisher, r.dest with
  | Finisher.Count, _ => Outcome.returns ({ Error := none, count := 1, value := none }, s)
  | Finisher.Find, none => Outcome.panics
  | _, _ => Outcome.returns ({ Error := none, count := 0, value := r.dest }, s)

/-- The offset `FindAllPaginated` hands to the page query. -/
def pageOffset (page pageSize : Int) : Int :=
  if page = 1 then 0 else wrapInt (wrapInt (page - 1) * pageSize)

/-- A connection on which nothing was issued yet. -/
def freshDB : DB Unit Nat :=
  { state := (), issued := [] }

/-- The engine rejects the predicate of the where clause: every request that
carries the clause ends with a reply that holds an error, in every engine state. -/
def Rejects {S V E : Type} (eng : Engine S V E) (w : WhereClause V) : Prop :=
  ∀ (r : Request V) (s : S), r.wh = some w.spread →
    ∃ reply s', eng r s = Outcome.returns (reply, s') ∧ reply.Error ≠ none

/-- An engine over a table with one row and no column `invalid_column`: a request
whose predicate is `invalid_column = ?` ends with an error, every other request is
served as by `oneRowEngine`. -/
def strictEngine : Engine Unit Nat String := fun r s =>
  match r.wh with
  | some ("invalid_column = ?", _) =>
    Outcome.returns
      ({ Error := some "no such column: invalid_column", count := 0, value := r.dest }, s)
  | _ => oneRowEngine r s

/-- The part of a token before its first `=`. -/
def keyPart (t : String) : String :=
  String.mk (t.data.takeWhile (fun c => c != '='))

/-- The part of a token after its first `=`. -/
def valuePart (t : String) : String :=
  String.mk (t.data.dropWhile (fun c => c != '=')).tail

/-- The value a token gives to the key `k`, in the words of the specification: the
token contains exactly one `=` and has `k` before it; the value is what stands
after the `=`. -/
def tokenValue (k : String) (t : String) : Option String :=
  if t.data.count '=' = 1 ∧ keyPart t = k then some (valuePart t) else none

/-- The value of the last space-separated token of the DSN that contains exactly
one `=` and has `k` before it. -/
def lastTokenValue (dsn : String) (k : String) : Option String :=
  (Split dsn ' ').reverse.findSome? (tokenValue k)

/-! ## Facts about `strings.Split` -/

theorem splitChars_ne_nil (sep : Char) (s : List Char) : splitChars sep s ≠ [] := by
  induction s with
  | nil => simp [splitChars]
  | cons c cs ih =>
    unfold splitChars
    split
    · simp
    · split <;> simp

theorem splitChars_of_not_mem {sep : Char} {s : List Char} (h : sep ∉ s) :
    splitChars sep s = [s] := by
  induction s with
  | nil => rfl
  | cons c cs ih =>
    have hc : c ≠ sep := fun e => h (by simp [e])
    have hcs : sep ∉ cs := fun e => h (by simp [e])
    simp [splitChars, hc, ih hcs]

theorem splitChars_append_sep {sep : Char} {a : List Char} (b : List Char) (h : sep ∉ a) :
    splitChars sep (a ++ sep :: b) = a :: splitChars sep b := by
  induction a with
  | nil => simp [splitChars]
  | cons c cs ih =>
    have hc : c ≠ sep := fun e => h (by simp [e])
    have hcs : sep ∉ cs := fun e => h (by simp [e])
    simp [splitChars, hc, ih hcs]

theorem not_mem_of_mem_splitChars {sep : Char} {s p : List Char}
    (h : p ∈ splitChars sep s) : sep ∉ p := by
  induction s generalizing p with
  | nil =>
    simp [splitChars] at h
    simp [h]
  | cons c cs ih =>
    unfold splitChars at h
    split at h
    · rcases List.mem_cons.mp h with rfl | h'
      · simp
      · exact ih h'
    · next hc =>
      split at h
      · next e => exact absurd e (splitChars_ne_nil sep cs)
      · next piece rest e =>
        rcases List.mem_cons.mp h with rfl | h'
        · have hp : sep ∉ piece := ih (by simp [e])
          intro hmem
          rcases List.mem_cons.mp hmem with e' | e'
          · exact hc e'.symm
          · exact hp e'
        · exact ih (by simp [e, h'])

theorem mem_of_mem_splitChars {sep : Char} {s p : List Char}
    (h : p ∈ splitChars sep s) : ∀ x ∈ p, x ∈ s := by
  induction s generalizing p with
  | nil =>
    simp [splitChars] at h
    simp [h]
  | cons c cs ih =>
    unfold splitChars at h
    split at h
    · rcases List.mem_cons.mp h with rfl | h'
      · simp
      · intro x hx
        exact List.mem_cons_of_mem _ (ih h' x hx)
    · split at h
      · next e => exact absurd e (splitChars_ne_nil sep cs)
      · next piece rest e =>
        rcases List.mem_cons.mp h with rfl | h'
        · intro x hx
          rcases List.mem_cons.mp hx with rfl | hx'
          · simp
          · exact List.mem_cons_of_mem _ (ih (by simp [e]) x hx')
        · intro x hx
          exact List.mem_cons_of_mem _ (ih (by simp [e, h']) x hx)

/-! ## Facts about `parse_dsn` -/

theorem Split_mem_data {s p : String} {sep : Char} (h : p ∈ Split s sep) :
    p.data ∈ splitChars sep s.data := by
  unfold Split at h
  rcases List.mem_map.mp h with ⟨q, hq, rfl⟩
  exact hq

theorem parse_dsn_step_clean (params : List (String × String)) (s : String)
    (hs : ' ' ∉ s.data) (hp : ∀ kv ∈ params, Clean kv.2) :
    ∀ kv ∈ parse_dsn_step params s, Clean kv.2 := by
  unfold parse_dsn_step
  split
  · next k v e =>
    intro kv hkv
    rcases List.mem_cons.mp hkv with rfl | h'
    · have hv : v ∈ Split s '=' := by simp [e]
      have hv' := Split_mem_data hv
      exact ⟨fun hsp => hs (mem_of_mem_splitChars hv' _ hsp), not_mem_of_mem_splitChars hv'⟩
    · exact hp kv h'
  · exact hp

theorem foldl_parse_dsn_step_clean (tokens : List String) (params : List (String × String))
    (ht : ∀ t ∈ tokens, ' ' ∉ t.data) (hp : ∀ kv ∈ params, Clean kv.2) :
    ∀ kv ∈ tokens.foldl parse_dsn_step params, Clean kv.2 := by
  induction tokens generalizing params with
  | nil => simpa using hp
  | cons t ts ih =>
    simp only [List.foldl_cons]
    exact ih _ (fun t' ht' => ht t' (List.mem_cons_of_mem _ ht'))
      (parse_dsn_step_clean params t (ht t (List.mem_cons_self _ _)) hp)

theorem parse_dsn_clean (dsn : String) : ∀ kv ∈ parse_dsn dsn, Clean kv.2 := by
  unfold parse_dsn
  apply foldl_parse_dsn_step_clean
  · intro t ht
    exact not_mem_of_mem_splitChars (Split_mem_data ht)
  · simp

theorem mem_of_lookup_eq_some {l : List (String × String)} {k v : String}
    (h : l.lookup k = some v) : (k, v) ∈ l := by
  rcases List.lookup_eq_some_iff.mp h with ⟨l₁, l₂, rfl, _⟩
  simp

theorem lookup_parse_dsn_clean {dsn k v : String} (h : (parse_dsn dsn).lookup k = some v) :
    Clean v :=
  parse_dsn_clean dsn (k, v) (mem_of_lookup_eq_some h)

/-- The result of `ParseDSN` in terms of the six reads of the parameter mapping. -/
theorem ParseDSN_eq_some_iff (dsn : String) (c : config) :
    ParseDSN dsn = (some c, none) ↔
      dsn ≠ "" ∧
      (parse_dsn dsn).lookup "host" = some c.host ∧
      (parse_dsn dsn).lookup "user" = some c.user ∧
      (parse_dsn dsn).lookup "password" = some c.password ∧
      (parse_dsn dsn).lookup "dbname" = some c.database ∧
      c.sslmode = ((parse_dsn dsn).lookup "sslmode").getD "disable" ∧
      c.timezone = ((parse_dsn dsn).lookup "timezone").getD "UTC" := by
  unfold ParseDSN
  by_cases hd : dsn = ""
  · simp [hd]
  · simp only [hd, if_false]
    cases hh : (parse_dsn dsn).lookup "host" <;>
    cases hu : (parse_dsn dsn).lookup "user" <;>
    cases hpw : (parse_dsn dsn).lookup "password" <;>
    cases hdb : (parse_dsn dsn).lookup "dbname" <;>
    cases hs : (parse_dsn dsn).lookup "sslmode" <;>
    cases ht : (parse_dsn dsn).lookup "timezone" <;>
    rcases c with ⟨d, u, p, h, s, t⟩ <;>
    simp [config.mk.injEq] <;>
    tauto

/-! ## Parsing a rendered DSN -/

theorem Split_space_cons (t rest : List Char) (h : ' ' ∉ t) :
    Split (String.mk (t ++ ' ' :: rest)) ' ' = String.mk t :: Split (String.mk rest) ' ' := by
  simp [Split, splitChars_append_sep rest h]

theorem Split_space_single (t : List Char) (h : ' ' ∉ t) :
    Split (String.mk t) ' ' = [String.mk t] := by
  simp [Split, splitChars_of_not_mem h]

theorem parse_dsn_step_token (params : List (String × String)) (k v : List Char)
    (hk : '=' ∉ k) (hv : '=' ∉ v) :
    parse_dsn_step params (String.mk (k ++ '=' :: v)) = (String.mk k, String.mk v) :: params := by
  simp [parse_dsn_step, Split, splitChars_append_sep v hk, splitChars_of_not_mem hv]

theorem DSNFromConfig_data (c : config) :
    DSNFromConfig c = String.mk
      (("host".data ++ '=' :: c.host.data) ++ ' ' ::
      (("user".data ++ '=' :: c.user.data) ++ ' ' ::
      (("password".data ++ '=' :: c.password.data) ++ ' ' ::
      (("dbname".data ++ '=' :: c.database.data) ++ ' ' ::
      (("sslmode".data ++ '=' :: c.sslmode.data) ++ ' ' ::
      ("timezone".data ++ '=' :: c.timezone.data)))))) := by
  apply String.ext
  simp [DSNFromConfig, config.getDSN, String.data_append]

theorem not_mem_token {x : Char} {k v : List Char} (hk : x ∉ k) (hx : x ≠ '=') (hv : x ∉ v) :
    x ∉ k ++ '=' :: v := by
  simp [hk, hx, hv]

theorem parse_dsn_DSNFromConfig (c : config)
    (hh : Clean c.host) (hu : Clean c.user) (hp : Clean c.password)
    (hd : Clean c.database) (hs : Clean c.sslmode) (ht : Clean c.timezone) :
    parse_dsn (DSNFromConfig c) =
      [("timezone", c.timezone), ("sslmode", c.sslmode), ("dbname", c.database),
       ("password", c.password), ("user", c.user), ("host", c.host)] := by
  have sp : (' ' : Char) ≠ '=' := by decide
  unfold parse_dsn
  rw [DSNFromConfig_data]
  rw [Split_space_cons _ _ (not_mem_token (by decide) sp hh.1),
    Split_space_cons _ _ (not_mem_token (by decide) sp hu.1),
    Split_space_cons _ _ (not_mem_token (by decide) sp hp.1),
    Split_space_cons _ _ (not_mem_token (by decide) sp hd.1),
    Split_space_cons _ _ (not_mem_token (by decide) sp hs.1),
    Split_space_single _ (not_mem_token (by decide) sp ht.1)]
  simp only [List.foldl_cons, List.foldl_nil]
  rw [parse_dsn_step_token _ _ _ (by decide) hh.2,
    parse_dsn_step_token _ _ _ (by decide) hu.2,
    parse_dsn_step_token _ _ _ (by decide) hp.2,
    parse_dsn_step_token _ _ _ (by decide) hd.2,
    parse_dsn_step_token _ _ _ (by decide) hs.2,
    parse_dsn_step_token _ _ _ (by decide) ht.2]

theorem DSNFromConfig_ne_empty (c : config) : DSNFromConfig c ≠ "" := by
  rw [DSNFromConfig_data]
  intro h
  have := congrArg String.data h
  simp at this

theorem ParseDSN_DSNFromConfig (c : config)
    (hh : Clean c.host) (hu : Clean c.user) (hp : Clean c.password)
    (hd : Clean c.database) (hs : Clean c.sslmode) (ht : Clean c.timezone) :
    ParseDSN (DSNFromConfig c) = (some c, none) := by
  rw [ParseDSN_eq_some_iff, parse_dsn_DSNFromConfig c hh hu hp hd hs ht]
  refine ⟨DSNFromConfig_ne_empty c, ?_, ?_, ?_, ?_, ?_, ?_⟩ <;>
    simp [List.lookup]

theorem Clean_getD {o : Option String} {dflt : String} (ho : ∀ v, o = some v → Clean v)
    (hd : Clean dflt) : Clean (o.getD dflt) := by
  cases o with
  | none => simpa using hd
  | some v => simpa using ho v rfl

theorem ParseDSN_clean {dsn : String} {c : config} (h : ParseDSN dsn = (some c, none)) :
    Clean c.host ∧ Clean c.user ∧ Clean c.password ∧ Clean c.database ∧
      Clean c.sslmode ∧ Clean c.timezone := by
  obtain ⟨_, hh, hu, hp, hd, hs, ht⟩ := (ParseDSN_eq_some_iff dsn c).mp h
  refine ⟨lookup_parse_dsn_clean hh, lookup_parse_dsn_clean hu, lookup_parse_dsn_clean hp,
    lookup_parse_dsn_clean hd, ?_, ?_⟩
  · rw [hs]
    exact Clean_getD (fun v hv => lookup_parse_dsn_clean hv) (by unfold Clean; decide)
  · rw [ht]
    exact Clean_getD (fun v hv => lookup_parse_dsn_clean hv) (by unfold Clean; decide)

/-! ## C1: round trip of the DSN parser -/

/-- C1. Whenever `ParseDSN d` succeeds with the config `c`, parsing the DSN that
`DSNFromConfig` renders from `c` succeeds as well and gives back `c`, equal in
all six fields. -/
theorem ParseDSN_roundtrip (d : String) (c : config) (h : ParseDSN d = (some c, none)) :
    ParseDSN (DSNFromConfig c) = (some c, none) := by
  obtain ⟨hh, hu, hp, hd, hs, ht⟩ := ParseDSN_clean h
  exact ParseDSN_DSNFromConfig c hh hu hp hd hs ht

/-- C1 at the DSN of the test suite, which leaves out nothing, and so the
re-parsed config has the six values of the input. -/
theorem ParseDSN_roundtrip_witness :
    ParseDSN "dbname=realorm user=realorm password=password host=localhost timezone=Africa/Kampala"
        = (some ⟨"realorm", "realorm", "password", "localhost", "disable", "Africa/Kampala"⟩, none) ∧
      ParseDSN (DSNFromConfig
          ⟨"realorm", "realorm", "password", "localhost", "disable", "Africa/Kampala"⟩)
        = (some ⟨"realorm", "realorm", "password", "localhost", "disable", "Africa/Kampala"⟩, none) :=
  ⟨by decide,
    ParseDSN_roundtrip
      "dbname=realorm user=realorm password=password host=localhost timezone=Africa/Kampala"
      ⟨"realorm", "realorm", "password", "localhost", "disable", "Africa/Kampala"⟩ (by decide)⟩

/-! ## The parameter mapping read through the tokens -/

theorem lookup_parse_dsn_step (k : String) (params : List (String × String)) (t : String) :
    (parse_dsn_step params t).lookup k = (acceptedValue k t).or (params.lookup k) := by
  unfold parse_dsn_step acceptedValue
  split
  · next k' v e =>
    by_cases hk : k = k'
    · simp [hk]
    · have hb : (k == k') = false := by simpa using hk
      simp [hk, List.lookup_cons, hb]
  · simp

theorem lookup_foldl_parse_dsn_step (k : String) (tokens : List String)
    (params : List (String × String)) :
    (tokens.foldl parse_dsn_step params).lookup k =
      (tokens.reverse.findSome? (acceptedValue k)).or (params.lookup k) := by
  induction tokens generalizing params with
  | nil => simp
  | cons t ts ih =>
    simp only [List.foldl_cons, List.reverse_cons, List.findSome?_append]
    rw [ih, lookup_parse_dsn_step]
    cases h1 : ts.reverse.findSome? (acceptedValue k) <;>
      cases h2 : acceptedValue k t <;> simp [List.findSome?, h2]

theorem lookup_parse_dsn (dsn k : String) :
    (parse_dsn dsn).lookup k = lastAccepted dsn k := by
  unfold parse_dsn lastAccepted
  rw [lookup_foldl_parse_dsn_step]
  simp

theorem parse_dsn_single_token (d : String) (h : ' ' ∉ d.data) :
    parse_dsn d = parse_dsn_step [] d := by
  unfold parse_dsn
  have : Split d ' ' = [d] := by
    simp [Split, splitChars_of_not_mem h]
  rw [this]
  rfl

/-- The outcome of `ParseDSN` on a DSN that is not empty, read by read. -/
theorem ParseDSN_error_cases (d : String) (hd : d ≠ "") :
    ((parse_dsn d).lookup "host" = none →
        ParseDSN d = (none, some "cannot parse DSN. host is empty")) ∧
    ((parse_dsn d).lookup "host" ≠ none → (parse_dsn d).lookup "user" = none →
        ParseDSN d = (none, some "cannot parse DSN. user is empty")) ∧
    ((parse_dsn d).lookup "host" ≠ none → (parse_dsn d).lookup "user" ≠ none →
      (parse_dsn d).lookup "password" = none →
        ParseDSN d = (none, some "cannot parse DSN. password is empty")) ∧
    ((parse_dsn d).lookup "host" ≠ none → (parse_dsn d).lookup "user" ≠ none →
      (parse_dsn d).lookup "password" ≠ none → (parse_dsn d).lookup "dbname" = none →
        ParseDSN d = (none, some "cannot parse DSN. database is empty")) ∧
    ((parse_dsn d).lookup "host" ≠ none → (parse_dsn d).lookup "user" ≠ none →
      (parse_dsn d).lookup "password" ≠ none → (parse_dsn d).lookup "dbname" ≠ none →
        ∃ c, ParseDSN d = (some c, none)) := by
  unfold ParseDSN
  simp only [hd, if_false]
  cases (parse_dsn d).lookup "host" <;>
  cases (parse_dsn d).lookup "user" <;>
  cases (parse_dsn d).lookup "password" <;>
  cases (parse_dsn d).lookup "dbname" <;>
  simp

theorem ParseDSN_empty : ParseDSN "" = (none, some "cannot parse DSN. DSN is empty") := by
  decide

theorem ParseDSN_fails_iff (d : String) :
    (∃ e, ParseDSN d = (none, some e)) ↔
      ((parse_dsn d).lookup "host" = none ∨ (parse_dsn d).lookup "user" = none ∨
       (parse_dsn d).lookup "password" = none ∨ (parse_dsn d).lookup "dbname" = none) := by
  by_cases hd : d = ""
  · subst hd
    constructor
    · intro _
      left
      decide
    · intro _
      exact ⟨_, ParseDSN_empty⟩
  · obtain ⟨h1, h2, h3, h4, h5⟩ := ParseDSN_error_cases d hd
    by_cases hh : (parse_dsn d).lookup "host" = none
    · exact ⟨fun _ => Or.inl hh, fun _ => ⟨_, h1 hh⟩⟩
    by_cases hu : (parse_dsn d).lookup "user" = none
    · exact ⟨fun _ => Or.inr (Or.inl hu), fun _ => ⟨_, h2 hh hu⟩⟩
    by_cases hp : (parse_dsn d).lookup "password" = none
    · exact ⟨fun _ => Or.inr (Or.inr (Or.inl hp)), fun _ => ⟨_, h3 hh hu hp⟩⟩
    by_cases hb : (parse_dsn d).lookup "dbname" = none
    · exact ⟨fun _ => Or.inr (Or.inr (Or.inr hb)), fun _ => ⟨_, h4 hh hu hp hb⟩⟩
    · obtain ⟨c, hc⟩ := h5 hh hu hp hb
      constructor
      · rintro ⟨e, he⟩
        rw [hc] at he
        simp at he
      · rintro (h | h | h | h) <;> contradiction

theorem single_token_misses_key (d : String) (h : ' ' ∉ d.data) :
    (parse_dsn d).lookup "host" = none ∨ (parse_dsn d).lookup "user" = none := by
  rw [parse_dsn_single_token d h, lookup_parse_dsn_step, lookup_parse_dsn_step]
  unfold acceptedValue
  split
  · next k v _ =>
    by_cases hk : "host" = k
    · right
      subst hk
      simp [List.lookup]
    · left
      simp [hk, List.lookup]
  · left
    simp [List.lookup]

/-! ## C2: `ParseDSN` fails exactly when a required key is missing -/

/-- C2. `ParseDSN d` returns an error and no config if and only if one of the keys
host, user, password, dbname is absent from the mapping `parse_dsn d`; so it fails
for the empty string, for every DSN that is one token (it has no space), and for
every DSN whose mapping lacks password or lacks dbname. -/
theorem ParseDSN_fails_iff_required_key_missing (d : String) :
    ((∃ e, ParseDSN d = (none, some e)) ↔
      ((parse_dsn d).lookup "host" = none ∨ (parse_dsn d).lookup "user" = none ∨
       (parse_dsn d).lookup "password" = none ∨ (parse_dsn d).lookup "dbname" = none)) ∧
    (d = "" → ∃ e, ParseDSN d = (none, some e)) ∧
    (' ' ∉ d.data → ∃ e, ParseDSN d = (none, some e)) ∧
    ((parse_dsn d).lookup "password" = none → ∃ e, ParseDSN d = (none, some e)) ∧
    ((parse_dsn d).lookup "dbname" = none → ∃ e, ParseDSN d = (none, some e)) := by
  refine ⟨ParseDSN_fails_iff d, ?_, ?_, ?_, ?_⟩
  · rintro rfl
    exact ⟨_, ParseDSN_empty⟩
  · intro h
    rcases single_token_misses_key d h with hk | hk
    · exact (ParseDSN_fails_iff d).mpr (Or.inl hk)
    · exact (ParseDSN_fails_iff d).mpr (Or.inr (Or.inl hk))
  · intro h
    exact (ParseDSN_fails_iff d).mpr (Or.inr (Or.inr (Or.inl h)))
  · intro h
    exact (ParseDSN_fails_iff d).mpr (Or.inr (Or.inr (Or.inr h)))

/-- C2 at the inputs of `TestParseDSN`: the empty DSN, a DSN of one token, the DSN
without password and the DSN without dbname all fail. -/
theorem ParseDSN_fails_iff_required_key_missing_witness :
    (∃ e, ParseDSN "" = (none, some e)) ∧
    (∃ e, ParseDSN "password=password" = (none, some e)) ∧
    (∃ e, ParseDSN
      "dbname=realorm user=realorm host=localhost sslmode=disable timezone=Africa/Kampala"
        = (none, some e)) ∧
    (∃ e, ParseDSN
      "user=realorm password=password host=localhost sslmode=disable timezone=Africa/Kampala"
        = (none, some e)) :=
  ⟨(ParseDSN_fails_iff_required_key_missing "").2.1 rfl,
   (ParseDSN_fails_iff_required_key_missing "password=password").2.2.1 (by decide),
   (ParseDSN_fails_iff_required_key_missing
      "dbname=realorm user=realorm host=localhost sslmode=disable timezone=Africa/Kampala").2.2.2.1
      (by decide),
   (ParseDSN_fails_iff_required_key_missing
      "user=realorm password=password host=localhost sslmode=disable timezone=Africa/Kampala").2.2.2.2
      (by decide)⟩

/-! ## C3: what the error of `ParseDSN` names -/

/-- C3 as stated does not hold: on the DSN `host=h user=u password=p`, whose
tokens supply host, user and password but not dbname, the error message is
`cannot parse DSN. database is empty`, in which the key `dbname` does not occur. -/
theorem ParseDSN_error_names_key_counterexample :
    ¬ (∀ d k : String, k ∈ ["host", "user", "password", "dbname"] → d ≠ "" →
        (∀ k' ∈ ["host", "user", "password", "dbname"], k' ≠ k →
          (parse_dsn d).lookup k' ≠ none) →
        (parse_dsn d).lookup k = none →
        ∃ e, ParseDSN d = (none, some e) ∧ namesKey e k) := by
  intro h
  obtain ⟨e, he, hn⟩ := h "host=h user=u password=p" "dbname" (by decide) (by decide)
    (by decide) (by decide)
  have hv : ParseDSN "host=h user=u password=p"
      = (none, some "cannot parse DSN. database is empty") := by decide
  rw [hv] at he
  have he' : "cannot parse DSN. database is empty" = e := by
    simpa using he
  subst he'
  revert hn
  decide

/-- C3, amended. The empty DSN gives the message `cannot parse DSN. DSN is empty`.
A DSN that is not empty and whose mapping has the other three required keys but
not `k` gives `cannot parse DSN. <k> is empty` for `k` among host, user, password,
a message that names the key, and `cannot parse DSN. database is empty` for
`k = dbname`, a message that names the config field database. -/
theorem ParseDSN_error_names_absent (d : String) (hd : d ≠ "") :
    ParseDSN "" = (none, some "cannot parse DSN. DSN is empty") ∧
    ((parse_dsn d).lookup "host" = none → (parse_dsn d).lookup "user" ≠ none →
      (parse_dsn d).lookup "password" ≠ none → (parse_dsn d).lookup "dbname" ≠ none →
        ParseDSN d = (none, some "cannot parse DSN. host is empty")) ∧
    ((parse_dsn d).lookup "user" = none → (parse_dsn d).lookup "host" ≠ none →
      (parse_dsn d).lookup "password" ≠ none → (parse_dsn d).lookup "dbname" ≠ none →
        ParseDSN d = (none, some "cannot parse DSN. user is empty")) ∧
    ((parse_dsn d).lookup "password" = none → (parse_dsn d).lookup "host" ≠ none →
      (parse_dsn d).lookup "user" ≠ none → (parse_dsn d).lookup "dbname" ≠ none →
        ParseDSN d = (none, some "cannot parse DSN. password is empty")) ∧
    ((parse_dsn d).lookup "dbname" = none → (parse_dsn d).lookup "host" ≠ none →
      (parse_dsn d).lookup "user" ≠ none → (parse_dsn d).lookup "password" ≠ none →
        ParseDSN d = (none, some "cannot parse DSN. database is empty")) ∧
    namesKey "cannot parse DSN. host is empty" "host" ∧
    namesKey "cannot parse DSN. user is empty" "user" ∧
    namesKey "cannot parse DSN. password is empty" "password" ∧
    namesKey "cannot parse DSN. database is empty" "database" := by
  obtain ⟨h1, h2, h3, h4, _⟩ := ParseDSN_error_cases d hd
  refine ⟨ParseDSN_empty, ?_, ?_, ?_, ?_, by decide, by decide, by decide, by decide⟩
  · intro hh _ _ _
    exact h1 hh
  · intro hu hh _ _
    exact h2 hh hu
  · intro hp hh hu _
    exact h3 hh hu hp
  · intro hb hh hu hp
    exact h4 hh hu hp hb

/-- C3, amended, at the DSN of `TestParseDSN` that has no dbname token. -/
theorem ParseDSN_error_names_absent_witness :
    ParseDSN
      "user=realorm password=password host=localhost sslmode=disable timezone=Africa/Kampala"
        = (none, some "cannot parse DSN. database is empty") :=
  (ParseDSN_error_names_absent
    "user=realorm password=password host=localhost sslmode=disable timezone=Africa/Kampala"
    (by decide)).2.2.2.2.1 (by decide) (by decide) (by decide) (by decide)

/-! ## C4: required fields and optional defaults -/

/-- C4. When `ParseDSN d` succeeds with `c`, `c.sslmode` is the value of the last
accepted sslmode token of `d` if there is one and `disable` otherwise,
`c.timezone` is the value of the last accepted timezone token if there is one and
`UTC` otherwise, and host, user, password, database are the values of the last
accepted host, user, password, dbname tokens; the same holds read from the
mapping `parse_dsn d`. -/
theorem ParseDSN_fields_and_defaults (d : String) (c : config)
    (h : ParseDSN d = (some c, none)) :
    (c.sslmode = (lastAccepted d "sslmode").getD "disable" ∧
     c.timezone = (lastAccepted d "timezone").getD "UTC" ∧
     lastAccepted d "host" = some c.host ∧
     lastAccepted d "user" = some c.user ∧
     lastAccepted d "password" = some c.password ∧
     lastAccepted d "dbname" = some c.database) ∧
    (c.sslmode = ((parse_dsn d).lookup "sslmode").getD "disable" ∧
     c.timezone = ((parse_dsn d).lookup "timezone").getD "UTC" ∧
     (parse_dsn d).lookup "host" = some c.host ∧
     (parse_dsn d).lookup "user" = some c.user ∧
     (parse_dsn d).lookup "password" = some c.password ∧
     (parse_dsn d).lookup "dbname" = some c.database) := by
  obtain ⟨_, hh, hu, hp, hb, hs, ht⟩ := (ParseDSN_eq_some_iff d c).mp h
  refine ⟨?_, hs, ht, hh, hu, hp, hb⟩
  simp only [← lookup_parse_dsn]
  exact ⟨hs, ht, hh, hu, hp, hb⟩

/-- C4 at a DSN without sslmode and timezone tokens: both defaults are applied. -/
theorem ParseDSN_fields_and_defaults_witness :
    ParseDSN "dbname=realorm user=realorm password=password host=localhost"
        = (some ⟨"realorm", "realorm", "password", "localhost", "disable", "UTC"⟩, none) ∧
    lastAccepted "dbname=realorm user=realorm password=password host=localhost" "sslmode"
        = none ∧
    (⟨"realorm", "realorm", "password", "localhost", "disable", "UTC"⟩ : config).sslmode
        = (lastAccepted "dbname=realorm user=realorm password=password host=localhost"
            "sslmode").getD "disable" :=
  ⟨by decide, by decide,
   (ParseDSN_fields_and_defaults
      "dbname=realorm user=realorm password=password host=localhost"
      ⟨"realorm", "realorm", "password", "localhost", "disable", "UTC"⟩ (by decide)).1.1⟩

/-! ## C5: required fields of a validated config -/

/-- C5 fails on the code: every token of `host= user= password= dbname=` splits at
`=` in two parts, the second of them empty, so `ParseDSN` succeeds with a config
whose four required fields are empty. -/
theorem ParseDSN_accepts_empty_required_values :
    ParseDSN "host= user= password= dbname="
      = (some ⟨"", "", "", "", "disable", "UTC"⟩, none) := by
  decide

/-! ## Page arithmetic -/

theorem wrapInt_of_range {x : Int} (h0 : -(2 ^ 63) ≤ x) (h1 : x < 2 ^ 63) : wrapInt x = x := by
  unfold wrapInt
  omega

theorem totalPages_eq_ceil (c n : Int) (hc : 0 ≤ c) (hc' : c < 2 ^ 63) (hn : 0 < n) :
    (if Int.tmod c n > 0 then wrapInt (wrapInt (Int.tdiv c n) + 1) else wrapInt (Int.tdiv c n))
      = ⌈(c : ℚ) / (n : ℚ)⌉ := by
  rw [Int.tdiv_eq_ediv hc hn.le, Int.tmod_eq_emod hc hn.le]
  have hdecomp : c % n + n * (c / n) = c := Int.emod_add_ediv c n
  have hr0 : 0 ≤ c % n := Int.emod_nonneg c hn.ne'
  have hr1 : c % n < n := Int.emod_lt_of_pos c hn
  have hq0 : 0 ≤ c / n := Int.ediv_nonneg hc hn.le
  have hqle : c / n ≤ n * (c / n) := by nlinarith
  have hnq : (0 : ℚ) < (n : ℚ) := by exact_mod_cast hn
  have hcast : ((c % n : Int) : ℚ) + (n : ℚ) * ((c / n : Int) : ℚ) = (c : ℚ) := by
    exact_mod_cast hdecomp
  have hr0q : (0 : ℚ) ≤ ((c % n : Int) : ℚ) := by exact_mod_cast hr0
  have hr1q : ((c % n : Int) : ℚ) < (n : ℚ) := by exact_mod_cast hr1
  have hw : wrapInt (c / n) = c / n := wrapInt_of_range (by omega) (by omega)
  rw [hw]
  split
  · next hpos =>
    have hposq : (0 : ℚ) < ((c % n : Int) : ℚ) := by exact_mod_cast hpos
    have hw' : wrapInt (c / n + 1) = c / n + 1 := wrapInt_of_range (by omega) (by omega)
    rw [hw']
    symm
    rw [Int.ceil_eq_iff]
    push_cast
    constructor
    · rw [lt_div_iff₀ hnq]
      nlinarith
    · rw [div_le_iff₀ hnq]
      nlinarith
  · next hnpos =>
    have hz : c % n = 0 := by omega
    have hzq : ((c % n : Int) : ℚ) = 0 := by exact_mod_cast hz
    symm
    rw [Int.ceil_eq_iff]
    constructor
    · rw [lt_div_iff₀ hnq]
      nlinarith
    · rw [div_le_iff₀ hnq]
      nlinarith

/-- What `FindAllPaginated` does once the count query has returned without an
error and the page size is not zero: it follows the page query, into a panic or
into a result built from the count and the page. -/
theorem FindAllPaginated_of_count {S V E : Type} (eng : Engine S V E) (db : DB S V)
    (models : Option V) (page pageSize : Int) (wh : Option (WhereClause V))
    (counted : Reply V E) (db1 : DB S V) (hn : pageSize ≠ 0)
    (hexec : db.exec eng (countRequest models wh) = Outcome.returns (counted, db1))
    (herr : counted.Error = none) :
    (db1.exec eng (pageRequest models (pageOffset page pageSize) pageSize wh) = Outcome.panics ∧
      FindAllPaginated eng db models page pageSize wh = Outcome.panics) ∨
    (∃ found db2 res,
      db1.exec eng (pageRequest models (pageOffset page pageSize) pageSize wh)
        = Outcome.returns (found, db2) ∧
      FindAllPaginated eng db models page pageSize wh
        = Outcome.returns ((some res, engineError found.Error), db2) ∧
      res.Results = found.value ∧
      res.Count = counted.count ∧
      res.TotalPages =
        (if Int.tmod counted.count pageSize > 0
          then wrapInt (wrapInt (Int.tdiv counted.count pageSize) + 1)
          else wrapInt (Int.tdiv counted.count pageSize)) ∧
      res.HasNext = decide (page < res.TotalPages) ∧
      res.HasPrev = decide (page > 1) ∧
      res.Page = page) := by
  unfold FindAllPaginated
  rw [hexec]
  simp only [herr, hn, if_false]
  rcases hx : db1.exec eng (pageRequest models (pageOffset page pageSize) pageSize wh) with
    ⟨found, db2⟩ | _
  · right
    unfold pageOffset at hx
    rw [hx]
    exact ⟨found, db2, _, rfl, rfl, rfl, rfl, rfl, rfl, rfl, rfl⟩
  · left
    unfold pageOffset at hx
    rw [hx]
    exact ⟨rfl, rfl⟩

/-- A panic of the engine in the page query, after a count that succeeded, is a
panic of `FindAllPaginated`: the sample engine panics on a `Find` without a
destination. -/
theorem FindAllPaginated_panics_with_engine :
    FindAllPaginated oneRowEngine freshDB none 1 10 none = Outcome.panics := by
  rfl

/-! ## C6: the page count is the ceiling -/

/-- C6. Let the count query return without an error the count `c`, `0 ≤ c`, and let
the page size `n` be positive. Then every result `FindAllPaginated` returns is
non-nil and has `TotalPages` equal to the ceiling of `c / n`, whatever the page,
the where clause and the rows the engine loads; it is 0 when `c = 0` and 1 when
`1 ≤ c ≤ n`. The function returns such a result whenever the page query returns,
and it panics when the page query panics. -/
theorem FindAllPaginated_TotalPages_ceil {S V E : Type} (eng : Engine S V E) (db : DB S V)
    (models : Option V) (page pageSize : Int) (wh : Option (WhereClause V))
    (counted : Reply V E) (db1 : DB S V) (c : Int)
    (hc : 0 ≤ c) (hc' : c < 2 ^ 63) (hn : 0 < pageSize)
    (hexec : db.exec eng (countRequest models wh) = Outcome.returns (counted, db1))
    (herr : counted.Error = none) (hcount : counted.count = c) :
    (∀ r err db',
      FindAllPaginated eng db models page pageSize wh = Outcome.returns ((r, err), db') →
      ∃ res, r = some res ∧
        res.TotalPages = ⌈(c : ℚ) / (pageSize : ℚ)⌉ ∧
        (c = 0 → res.TotalPages = 0) ∧
        (1 ≤ c → c ≤ pageSize → res.TotalPages = 1)) ∧
    (∀ found db2,
      db1.exec eng (pageRequest models (pageOffset page pageSize) pageSize wh)
        = Outcome.returns (found, db2) →
      ∃ res,
        FindAllPaginated eng db models page pageSize wh
          = Outcome.returns ((some res, engineError found.Error), db2) ∧
        res.TotalPages = ⌈(c : ℚ) / (pageSize : ℚ)⌉) ∧
    (db1.exec eng (pageRequest models (pageOffset page pageSize) pageSize wh) = Outcome.panics →
      FindAllPaginated eng db models page pageSize wh = Outcome.panics) := by
  have hnq : (0 : ℚ) < (pageSize : ℚ) := by exact_mod_cast hn
  have hzero : c = 0 → ⌈(c : ℚ) / (pageSize : ℚ)⌉ = 0 := by
    intro h0
    rw [h0]
    simp
  have hone : 1 ≤ c → c ≤ pageSize → ⌈(c : ℚ) / (pageSize : ℚ)⌉ = 1 := by
    intro h1 h2
    rw [Int.ceil_eq_iff]
    have h1q : (1 : ℚ) ≤ (c : ℚ) := by exact_mod_cast h1
    have h2q : (c : ℚ) ≤ (pageSize : ℚ) := by exact_mod_cast h2
    constructor
    · have : (0 : ℚ) < (c : ℚ) / (pageSize : ℚ) := div_pos (by linarith) hnq
      simpa using this
    · rw [div_le_iff₀ hnq]
      simpa using h2q
  rcases FindAllPaginated_of_count eng db models page pageSize wh counted db1 hn.ne' hexec herr
    with ⟨hp, hpanic⟩ | ⟨found, db2, res, hp, hres, _, _, htot, _, _, _⟩
  · refine ⟨?_, ?_, fun _ => hpanic⟩
    · intro r err db' h
      rw [hpanic] at h
      cases h
    · intro found db2 h
      rw [hp] at h
      cases h
  · rw [hcount, totalPages_eq_ceil c pageSize hc hc' hn] at htot
    refine ⟨?_, ?_, ?_⟩
    · intro r err db' h
      rw [hres] at h
      injection h with h
      injection h with h _
      injection h with h _
      exact ⟨res, h.symm, htot, fun h0 => htot.trans (hzero h0),
        fun h1 h2 => htot.trans (hone h1 h2)⟩
    · intro found' db2' h
      rw [hp] at h
      injection h with h
      injection h with h1 h2
      subst h1
      subst h2
      exact ⟨res, hres, htot⟩
    · intro h
      rw [hp] at h
      cases h

/-- C6 on the one-row table with page size 10: the call returns on page 1 and on
page 2, each time with one page. -/
theorem FindAllPaginated_TotalPages_ceil_witness :
    (∃ res err db',
      FindAllPaginated oneRowEngine freshDB (some 0) 1 10 none
        = Outcome.returns ((some res, err), db') ∧
      res.TotalPages = ⌈((1 : Int) : ℚ) / ((10 : Int) : ℚ)⌉ ∧ res.TotalPages = 1) ∧
    (∃ res err db',
      FindAllPaginated oneRowEngine freshDB (some 0) 2 10 none
        = Outcome.returns ((some res, err), db') ∧
      res.TotalPages = ⌈((1 : Int) : ℚ) / ((10 : Int) : ℚ)⌉ ∧ res.TotalPages = 1) := by
  have h1 := FindAllPaginated_TotalPages_ceil oneRowEngine freshDB (some 0) 1 10 none
    { Error := none, count := 1, value := none }
    { state := (), issued := [countRequest (some 0) none] } 1
    (by decide) (by decide) (by decide) rfl rfl rfl
  have h2 := FindAllPaginated_TotalPages_ceil oneRowEngine freshDB (some 0) 2 10 none
    { Error := none, count := 1, value := none }
    { state := (), issued := [countRequest (some 0) none] } 1
    (by decide) (by decide) (by decide) rfl rfl rfl
  constructor
  · obtain ⟨res, hres, _⟩ := h1.2.1 _ _ rfl
    obtain ⟨res', hr, htot, _, hone⟩ := h1.1 _ _ _ hres
    cases hr
    exact ⟨res, _, _, hres, htot, hone (by decide) (by decide)⟩
  · obtain ⟨res, hres, _⟩ := h2.2.1 _ _ rfl
    obtain ⟨res', hr, htot, _, hone⟩ := h2.1 _ _ _ hres
    cases hr
    exact ⟨res, _, _, hres, htot, hone (by decide) (by decide)⟩

/-! ## C7: the navigation flags -/

/-- C7. Let the count query return without an error and let the page size `n` be
positive. Then every result `FindAllPaginated` returns is non-nil and has `Page`
the requested page `p`, `Count` the count the count query reported,
`HasNext = (p < TotalPages)` and `HasPrev = (p > 1)`; with a count of 1 and
`n = 10`, page 1 has neither a next nor a previous page and page 2 has no next
page and a previous page. The function returns such a result whenever the page
query returns, and it panics when the page query panics. -/
theorem FindAllPaginated_flags {S V E : Type} (eng : Engine S V E) (db : DB S V)
    (models : Option V) (page pageSize : Int) (wh : Option (WhereClause V))
    (counted : Reply V E) (db1 : DB S V) (hn : 0 < pageSize)
    (hexec : db.exec eng (countRequest models wh) = Outcome.returns (counted, db1))
    (herr : counted.Error = none) :
    (∀ r err db',
      FindAllPaginated eng db models page pageSize wh = Outcome.returns ((r, err), db') →
      ∃ res, r = some res ∧
        res.Page = page ∧
        res.Count = counted.count ∧
        res.HasNext = decide (page < res.TotalPages) ∧
        res.HasPrev = decide (page > 1) ∧
        (res.Count = 1 → pageSize = 10 → page = 1 →
          res.TotalPages = 1 ∧ res.HasNext = false ∧ res.HasPrev = false) ∧
        (res.Count = 1 → pageSize = 10 → page = 2 →
          res.TotalPages = 1 ∧ res.HasNext = false ∧ res.HasPrev = true)) ∧
    (∀ found db2,
      db1.exec eng (pageRequest models (pageOffset page pageSize) pageSize wh)
        = Outcome.returns (found, db2) →
      ∃ res,
        FindAllPaginated eng db models page pageSize wh
          = Outcome.returns ((some res, engineError found.Error), db2)) ∧
    (db1.exec eng (pageRequest models (pageOffset page pageSize) pageSize wh) = Outcome.panics →
      FindAllPaginated eng db models page pageSize wh = Outcome.panics) := by
  rcases FindAllPaginated_of_count eng db models page pageSize wh counted db1 hn.ne' hexec herr
    with ⟨hp, hpanic⟩ | ⟨found, db2, res, hp, hres, _, hcnt, htot, hnext, hprev, hpage⟩
  · refine ⟨?_, ?_, fun _ => hpanic⟩
    · intro r err db' h
      rw [hpanic] at h
      cases h
    · intro found db2 h
      rw [hp] at h
      cases h
  · refine ⟨?_, ?_, ?_⟩
    · intro r err db' h
      rw [hres] at h
      injection h with h
      injection h with h _
      injection h with h _
      refine ⟨res, h.symm, hpage, hcnt, hnext, hprev, ?_, ?_⟩
      · intro h1 h10 hpg
        rw [← hcnt, h1, h10] at htot
        have ht : res.TotalPages = 1 := by rw [htot]; decide
        rw [hnext, hprev, ht, hpg]
        decide
      · intro h1 h10 hpg
        rw [← hcnt, h1, h10] at htot
        have ht : res.TotalPages = 1 := by rw [htot]; decide
        rw [hnext, hprev, ht, hpg]
        decide
    · intro found' db2' h
      rw [hp] at h
      injection h with h
      injection h with h1 h2
      subst h1
      subst h2
      exact ⟨res, hres⟩
    · intro h
      rw [hp] at h
      cases h

/-- C7 on the one-row table with page size 10, at page 2: the call returns, with
the flags of the scenario. -/
theorem FindAllPaginated_flags_witness :
    ∃ res err db',
      FindAllPaginated oneRowEngine freshDB (some 0) 2 10 none
        = Outcome.returns ((some res, err), db') ∧
      res.Page = 2 ∧ res.Count = 1 ∧ res.TotalPages = 1 ∧
      res.HasNext = false ∧ res.HasPrev = true := by
  have h := FindAllPaginated_flags oneRowEngine freshDB (some 0) 2 10 none
    { Error := none, count := 1, value := none }
    { state := (), issued := [countRequest (some 0) none] } (by decide) rfl rfl
  obtain ⟨res, hres⟩ := h.2.1 _ _ rfl
  obtain ⟨res', hr, hpage, hcnt, _, _, _, h2⟩ := h.1 _ _ _ hres
  cases hr
  obtain ⟨ht, hnext, hprev⟩ := h2 hcnt rfl rfl
  exact ⟨res, _, _, hres, hpage, hcnt, ht, hnext, hprev⟩

/-! ## C8: the where-clause guard -/

/-- C8 as stated does not hold for every updates value: with the nil interface as
`updates`, `Update` panics in `GetType`, which runs before the guard, in place of
returning `ErrNoWhereClause`. -/
theorem Update_nil_updates_panics :
    Update (fun v : Nat => v) oneRowEngine freshDB none 1 none = Outcome.panics ∧
    Update (fun v : Nat => v) oneRowEngine freshDB none 1 none
      ≠ Outcome.returns ((none, some OrmError.ErrNoWhereClause), freshDB) := by
  constructor
  · rfl
  · intro h
    cases h

/-- C8, amended. With a nil where clause, `Find` and `Delete` on every model and
`Update` on every updates value that is not the nil interface and every id return
exactly `ErrNoWhereClause` (`Update` with a nil result), and the connection is
the one they were given: no request was issued and the engine state is unchanged. -/
theorem nil_where_clause_guard {S V E : Type} (newOf : V → V) (eng : Engine S V E)
    (db : DB S V) (model : Option V) (updates : V) (id : Nat) :
    Find eng db model none
      = Outcome.returns ((some OrmError.ErrNoWhereClause, model), db) ∧
    Update newOf eng db (some updates) id none
      = Outcome.returns ((none, some OrmError.ErrNoWhereClause), db) ∧
    Delete eng db model none = Outcome.returns (some OrmError.ErrNoWhereClause, db) :=
  ⟨rfl, rfl, rfl⟩

/-! ## C9: the dialect tags -/

/-- C9. For every environment, DSN and dialect tag `t`, `ParseDialect` returns an
error if and only if `t` is none of `postgres`, `sqlite3`, `mysql`; when it does,
the dialector is nil and the error is `unknown dialect: ` followed by `t`; when it
does not, a dialector is returned. -/
theorem ParseDialect_error_iff_unknown (getenv : String → String) (dsn : String)
    (t : DialectString) :
    ((ParseDialect getenv dsn t).2.2 ≠ none ↔
      (t ≠ "postgres" ∧ t ≠ "sqlite3" ∧ t ≠ "mysql")) ∧
    ((ParseDialect getenv dsn t).2.2 ≠ none →
      (ParseDialect getenv dsn t).1 = none ∧
      (ParseDialect getenv dsn t).2.2 = some ("unknown dialect: " ++ t)) ∧
    ((ParseDialect getenv dsn t).2.2 = none → (ParseDialect getenv dsn t).1 ≠ none) := by
  unfold ParseDialect PG SQLITE3 MYSQL
  by_cases h1 : t = "postgres"
  · subst h1
    simp
  · by_cases h2 : t = "sqlite3"
    · subst h2
      simp
    · by_cases h3 : t = "mysql"
      · subst h3
        simp
      · simp [h1, h2, h3]

/-- C9 at the tag of `TestParseWrongDialect`, for a silent and for an unset
logging level. -/
theorem ParseDialect_error_iff_unknown_witness :
    ((ParseDialect (fun _ => "silent") "" "wrong").1 = none ∧
      (ParseDialect (fun _ => "silent") "" "wrong").2.2 = some "unknown dialect: wrong") ∧
    ((ParseDialect (fun _ => "") "" "wrong").1 = none ∧
      (ParseDialect (fun _ => "") "" "wrong").2.2 = some ("unknown dialect: " ++ "wrong")) :=
  ⟨(ParseDialect_error_iff_unknown (fun _ => "silent") "" "wrong").2.1 (by decide),
   (ParseDialect_error_iff_unknown (fun _ => "") "" "wrong").2.1 (by decide)⟩

/-! ## C10: the connection descriptor -/

/-- C10. For every environment, engine and dialect: a `*config` descriptor with a
dialect other than postgres makes `Connect` return a nil handle and the error
`config is only valid when dialect is postgres`; a descriptor that is neither a
`*config` nor a string, the nil interface included, makes it return a nil handle
and the error `connection is not a valid dsn string or config`; in both cases
neither `ParseDialect` nor `gorm.Open` has been called. -/
theorem Connect_rejects_descriptor {H : Type} (getenv : String → String)
    (gormOpen : Option Dialector → GormConfig → Option H × Option String)
    (connection : Connection) (dialect : DialectString) :
    (∀ c, connection = Connection.config c → dialect ≠ PG →
      Connect getenv gormOpen connection dialect
        = Outcome.returns ((none, some "config is only valid when dialect is postgres"), [])) ∧
    ((∀ c, connection ≠ Connection.config c) → (∀ s, connection ≠ Connection.string s) →
      Connect getenv gormOpen connection dialect
        = Outcome.returns ((none, some "connection is not a valid dsn string or config"), [])) := by
  constructor
  · rintro c rfl hd
    simp [Connect, hd]
  · intro hc hs
    cases connection with
    | config c => exact absurd rfl (hc c)
    | string s => exact absurd rfl (hs s)
    | other typ => rfl
    | nil => rfl

/-- C10 at the failing descriptors of `TestNew`: a config with the sqlite3 dialect
and the nil descriptor with the postgres dialect. -/
theorem Connect_rejects_descriptor_witness :
    Connect (fun _ => "silent") (fun _ _ => (some (), none))
        (Connection.config (some (NewConfig "" "" "" "localhost" "disable" "Africa/Kampala")))
        SQLITE3
      = Outcome.returns ((none, some "config is only valid when dialect is postgres"), []) ∧
    Connect (fun _ => "silent") (fun _ _ => (some (), none)) Connection.nil PG
      = Outcome.returns ((none, some "connection is not a valid dsn string or config"), []) :=
  ⟨(Connect_rejects_descriptor (fun _ => "silent") (fun _ _ => (some (), none))
      (Connection.config (some (NewConfig "" "" "" "localhost" "disable" "Africa/Kampala")))
      SQLITE3).1 _ rfl (by decide),
   (Connect_rejects_descriptor (fun _ => "silent") (fun _ _ => (some (), none))
      Connection.nil PG).2 (by intro c h; cases h) (by intro s h; cases h)⟩

/-! ## Splitting and counting separators -/

theorem splitChars_length (sep : Char) (s : List Char) :
    (splitChars sep s).length = s.count sep + 1 := by
  induction s with
  | nil => simp [splitChars]
  | cons c cs ih =>
    unfold splitChars
    by_cases hc : c = sep
    · subst hc
      simp [ih]
    · have hb : (c == sep) = false := by simpa using hc
      simp only [hc, if_false, List.count_cons, hb]
      split
      · next e => exact absurd e (splitChars_ne_nil sep cs)
      · next piece rest e =>
        rw [e] at ih
        simpa using ih

theorem not_mem_of_count_eq_zero {sep : Char} {s : List Char} (h : s.count sep = 0) :
    sep ∉ s := by
  intro hm
  have := List.count_pos_iff.mpr hm
  omega

theorem splitChars_of_count_one (sep : Char) (s : List Char) (h : s.count sep = 1) :
    splitChars sep s =
      [s.takeWhile (fun c => c != sep), (s.dropWhile (fun c => c != sep)).tail] := by
  induction s with
  | nil => simp at h
  | cons c cs ih =>
    by_cases hc : c = sep
    · subst hc
      have h0 : cs.count c = 0 := by simpa using h
      simp [splitChars, splitChars_of_not_mem (not_mem_of_count_eq_zero h0)]
    · have hb : (c == sep) = false := by simpa using hc
      have h1 : cs.count sep = 1 := by simpa [List.count_cons, hb] using h
      have hne : (c != sep) = true := by simpa using hc
      simp [splitChars, hc, ih h1, List.takeWhile_cons, List.dropWhile_cons, hne]

theorem Split_of_count_one (t : String) (h : t.data.count '=' = 1) :
    Split t '=' = [keyPart t, valuePart t] := by
  simp [Split, keyPart, valuePart, splitChars_of_count_one '=' t.data h]

theorem Split_length (t : String) (sep : Char) :
    (Split t sep).length = t.data.count sep + 1 := by
  simp [Split, splitChars_length]

theorem parse_dsn_step_of_count_ne_one (params : List (String × String)) (t : String)
    (h : t.data.count '=' ≠ 1) : parse_dsn_step params t = params := by
  unfold parse_dsn_step
  split
  · next k v e =>
    have hl := Split_length t '='
    rw [e] at hl
    simp at hl
    omega
  · rfl

theorem acceptedValue_eq_tokenValue (k t : String) : acceptedValue k t = tokenValue k t := by
  unfold acceptedValue tokenValue
  by_cases h : t.data.count '=' = 1
  · rw [Split_of_count_one t h]
    by_cases hk : k = keyPart t
    · simp [h, hk]
    · have hk' : ¬ keyPart t = k := fun e => hk e.symm
      simp [h, hk, hk']
  · simp only [h, false_and, if_false]
    split
    · next k' v e =>
      have hl := Split_length t '='
      rw [e] at hl
      simp at hl
      omega
    · rfl

theorem lastAccepted_eq_lastTokenValue (d k : String) :
    lastAccepted d k = lastTokenValue d k := by
  unfold lastAccepted lastTokenValue
  have : acceptedValue k = tokenValue k := funext (acceptedValue_eq_tokenValue k)
  rw [this]

theorem lastTokenValue_eq_none (d k : String)
    (h : ∀ t ∈ Split d ' ', keyPart t = k → t.data.count '=' ≠ 1) :
    lastTokenValue d k = none := by
  unfold lastTokenValue
  rw [List.findSome?_eq_none_iff]
  intro t ht
  unfold tokenValue
  have ht' : t ∈ Split d ' ' := by simpa using ht
  by_cases hk : keyPart t = k
  · simp [h t ht' hk]
  · simp [hk]

/-! ## C11: a rejected predicate in `FindAllPaginated` -/

/-- The sample engine rejects the predicate `invalid_column = ?`. -/
theorem strictEngine_rejects (args : List (Option Nat)) :
    Rejects strictEngine ({ Query := "invalid_column = ?", Args := args } : WhereClause Nat) := by
  intro r s hr
  unfold strictEngine
  simp only [hr, WhereClause.spread]
  exact ⟨_, _, rfl, by simp⟩

/-- C11 as stated does not hold: on the engine that rejects the predicate
`invalid_column = ?`, with page 1 and page size 10, `FindAllPaginated` returns the
engine's error with a nil `PaginatedResult`, so no non-nil result comes with it. -/
theorem FindAllPaginated_rejected_predicate_counterexample :
    ¬ (∀ (eng : Engine Unit Nat String) (db : DB Unit Nat) (models : Option Nat)
        (page pageSize : Int) (w : WhereClause Nat),
        Rejects eng w → 1 ≤ page → 0 < pageSize →
        ∃ res e db', FindAllPaginated eng db models page pageSize (some w)
          = Outcome.returns ((some res, some e), db')) := by
  intro h
  obtain ⟨res, e, db', hres⟩ := h strictEngine freshDB (some 0) 1 10
    { Query := "invalid_column = ?", Args := [some 1] } (strictEngine_rejects [some 1])
    (by decide) (by decide)
  have hval : FindAllPaginated strictEngine freshDB (some 0) 1 10
      (some { Query := "invalid_column = ?", Args := [some 1] })
      = Outcome.returns ((none, some (OrmError.engine "no such column: invalid_column")),
          { state := (), issued := [countRequest (some 0)
              (some { Query := "invalid_column = ?", Args := [some 1] })] }) := rfl
  rw [hval] at hres
  injection hres with hres
  injection hres with hres _
  injection hres with hres _
  cases hres

/-- C11, amended. Whenever the engine rejects the predicate of the where clause,
`FindAllPaginated` returns, for every page and page size, the error of the
engine's count query together with a nil `PaginatedResult`, and the count query is
the only request it has issued. -/
theorem FindAllPaginated_rejected_predicate {S V E : Type} (eng : Engine S V E)
    (db : DB S V) (models : Option V) (page pageSize : Int) (w : WhereClause V)
    (h : Rejects eng w) :
    ∃ e counted db',
      db.exec eng (countRequest models (some w)) = Outcome.returns (counted, db') ∧
      counted.Error = some e ∧
      FindAllPaginated eng db models page pageSize (some w)
        = Outcome.returns ((none, some (OrmError.engine e)), db') ∧
      db'.issued = db.issued ++ [countRequest models (some w)] := by
  obtain ⟨reply, s', hret, hne⟩ := h (countRequest models (some w)) db.state rfl
  obtain ⟨e, he⟩ := Option.ne_none_iff_exists'.mp hne
  have hexec : db.exec eng (countRequest models (some w))
      = Outcome.returns (reply, { state := s', issued := db.issued ++ [countRequest models (some w)] }) := by
    unfold DB.exec
    rw [hret]
  refine ⟨e, reply, _, hexec, he, ?_, rfl⟩
  unfold FindAllPaginated
  rw [hexec]
  simp only [he]

/-- C11, amended, at the call of `Test_realorm_FindAllPaginated` with the predicate
`invalid_column = ?`. -/
theorem FindAllPaginated_rejected_predicate_witness :
    ∃ e counted db',
      freshDB.exec strictEngine (countRequest (some 0)
        (some { Query := "invalid_column = ?", Args := [some 1] }))
        = Outcome.returns (counted, db') ∧
      counted.Error = some e ∧
      FindAllPaginated strictEngine freshDB (some 0) 1 10
          (some { Query := "invalid_column = ?", Args := [some 1] })
        = Outcome.returns ((none, some (OrmError.engine e)), db') ∧
      db'.issued = freshDB.issued ++ [countRequest (some 0)
        (some { Query := "invalid_column = ?", Args := [some 1] })] :=
  FindAllPaginated_rejected_predicate strictEngine freshDB (some 0) 1 10
    { Query := "invalid_column = ?", Args := [some 1] } (strictEngine_rejects [some 1])

/-! ## C12: tokenization of `parse_dsn` -/

/-- C12. The mapping `parse_dsn d` has the key `k` with the value `v` if and only
if the last space-separated token of `d` that contains exactly one `=` and has `k`
before it has `v` after it; a token without `=` or with more than one `=` leaves
the mapping as it is; so when every token of `d` whose part before the first `=`
is `password` has more than one `=`, `ParseDSN` fails, and with host and user
present it fails with the message of a missing password. -/
theorem parse_dsn_tokenization (d k v : String) :
    ((parse_dsn d).lookup k = some v ↔ lastTokenValue d k = some v) ∧
    (∀ (params : List (String × String)) (t : String),
      t.data.count '=' ≠ 1 → parse_dsn_step params t = params) ∧
    ((∀ t ∈ Split d ' ', keyPart t = "password" → t.data.count '=' ≠ 1) →
      (parse_dsn d).lookup "password" = none ∧
      (∃ e, ParseDSN d = (none, some e)) ∧
      ((parse_dsn d).lookup "host" ≠ none → (parse_dsn d).lookup "user" ≠ none →
        ParseDSN d = (none, some "cannot parse DSN. password is empty"))) := by
  refine ⟨?_, parse_dsn_step_of_count_ne_one, ?_⟩
  · rw [lookup_parse_dsn, lastAccepted_eq_lastTokenValue]
  · intro h
    have hp : (parse_dsn d).lookup "password" = none := by
      rw [lookup_parse_dsn, lastAccepted_eq_lastTokenValue]
      exact lastTokenValue_eq_none d "password" h
    refine ⟨hp, (ParseDSN_fails_iff d).mpr (Or.inr (Or.inr (Or.inl hp))), ?_⟩
    intro hh hu
    have hd : d ≠ "" := by
      rintro rfl
      exact hh (by decide)
    exact (ParseDSN_error_cases d hd).2.2.1 hh hu hp

/-- C12 at a DSN whose only password token is `password=a=b`: the token is
dropped and `ParseDSN` reports a missing password. -/
theorem parse_dsn_tokenization_witness :
    (parse_dsn "host=h user=u password=a=b dbname=d").lookup "password" = none ∧
    ParseDSN "host=h user=u password=a=b dbname=d"
      = (none, some "cannot parse DSN. password is empty") ∧
    ((parse_dsn "host=h user=u dbname=d user=w").lookup "user" = some "w" ↔
      lastTokenValue "host=h user=u dbname=d user=w" "user" = some "w") :=
  ⟨((parse_dsn_tokenization "host=h user=u password=a=b dbname=d" "password" "a=b").2.2
      (by decide)).1,
   ((parse_dsn_tokenization "host=h user=u password=a=b dbname=d" "password" "a=b").2.2
      (by decide)).2.2 (by decide) (by decide),
   (parse_dsn_tokenization "host=h user=u dbname=d user=w" "user" "w").1⟩

/-! ## C13: `NewConfig` and its `ssl_mode` argument -/

/-- C13. For all arguments, the config of `NewConfig` has the database, user,
password, host and timezone it was given and the sslmode `disable`, whatever
`ssl_mode` is, and `DSNFromConfig` renders it as
`host=<host> user=<user> password=<password> dbname=<db> sslmode=disable timezone=<tz>`. -/
theorem NewConfig_discards_ssl_mode (db user password host ssl_mode tz : String) :
    (NewConfig db user password host ssl_mode tz).database = db ∧
    (NewConfig db user password host ssl_mode tz).user = user ∧
    (NewConfig db user password host ssl_mode tz).password = password ∧
    (NewConfig db user password host ssl_mode tz).host = host ∧
    (NewConfig db user password host ssl_mode tz).timezone = tz ∧
    (NewConfig db user password host ssl_mode tz).sslmode = "disable" ∧
    NewConfig db user password host ssl_mode tz = NewConfig db user password host "" tz ∧
    DSNFromConfig (NewConfig db user password host ssl_mode tz)
      = "host=" ++ host ++ " user=" ++ user ++ " password=" ++ password ++ " dbname=" ++ db
          ++ " sslmode=disable timezone=" ++ tz := by
  refine ⟨rfl, rfl, rfl, rfl, rfl, rfl, rfl, ?_⟩
  apply String.ext
  simp [DSNFromConfig, config.getDSN, NewConfig, String.data_append]

end Realorm
